import Mathlib

/-!
Shallow embedding of the Discord meme-recommendation bot (`main.py`).

Python strings that take part in computation (keyword scanning, JSON-substring
extraction) are modelled as `List Char`; message lists become `List (List Char)`.
External collaborators (the Gemini reasoning service, the Tenor media-search
service) are modelled by explicit outcome parameters, and `random.choice` by an
explicit pick index reduced modulo the list length.
-/

/-- Structure `MoodAnalysis` is the analysis dict `{mood, search_query, confidence}`
returned by `analyze_conversation_mood` and its helpers. -/
structure MoodAnalysis where
  mood : String
  search_query : String
  confidence : String
deriving DecidableEq, Repr

/-- Predicate `startsWithL needle hay` : does `hay` start with `needle`? Helper for the
Python substring test `needle in hay`. -/
def startsWithL : List Char → List Char → Bool
  | [], _ => true
  | _ :: _, [] => false
  | a :: as, b :: bs => a == b && startsWithL as bs

/-- Predicate `containsSub needle hay` models Python's `needle in hay` on strings:
`needle` occurs as a contiguous substring of `hay`. -/
def containsSub (needle : List Char) : List Char → Bool
  | [] => startsWithL needle []
  | b :: bs => startsWithL needle (b :: bs) || containsSub needle bs

/-- Function `joinSpace` models Python's `" ".join(messages)`. -/
def joinSpace : List (List Char) → List Char
  | [] => []
  | [m] => m
  | m :: rest => m ++ ' ' :: joinSpace rest

/-- Function `lowerL` models Python's `str.lower()` (ASCII case folding). -/
def lowerL (s : List Char) : List Char := s.map Char.toLower

/-- The roast-bucket keywords of `_fallback_analysis` (main.py line 136). -/
def roastWords : List (List Char) :=
  ["roast".toList, "burn".toList, "savage".toList, "rekt".toList]

/-- The celebration-bucket keywords of `_fallback_analysis` (main.py line 138). -/
def celebrationWords : List (List Char) :=
  ["celebration".toList, "victory".toList, "win".toList, "congrats".toList]

/-- The chaos-bucket keywords of `_fallback_analysis` (main.py line 140). -/
def chaosWords : List (List Char) :=
  ["chaos".toList, "madness".toList, "wtf".toList, "confused".toList]

/-- Test `any(word in text for word in words)` from `_fallback_analysis`. -/
def keywordHit (text : List Char) (words : List (List Char)) : Bool :=
  words.any (fun w => containsSub w text)

/-- The lower-cased space-joined text `" ".join(messages).lower()` scanned by
`_fallback_analysis`. -/
def moodText (messages : List (List Char)) : List Char :=
  lowerL (joinSpace messages)

/-- The fixed roast result tuple of `_fallback_analysis`. -/
def roastTuple : MoodAnalysis := ⟨"roast", "savage burn gif", "low"⟩

/-- The fixed celebration result tuple of `_fallback_analysis`. -/
def celebrationTuple : MoodAnalysis := ⟨"celebration", "celebration victory gif", "low"⟩

/-- The fixed chaos result tuple of `_fallback_analysis`. -/
def chaosTuple : MoodAnalysis := ⟨"chaos", "confused chaos gif", "low"⟩

/-- The fixed neutral result tuple of `_fallback_analysis`. -/
def neutralTuple : MoodAnalysis := ⟨"neutral", "reaction gif", "low"⟩

/-- Method `MemeRecommender._fallback_analysis` (main.py lines 131-143): keyword-based
mood analysis on the lower-cased space-joined message text. -/
def fallback_analysis (messages : List (List Char)) : MoodAnalysis :=
  let text := moodText messages
  if keywordHit text roastWords then roastTuple
  else if keywordHit text celebrationWords then celebrationTuple
  else if keywordHit text chaosWords then chaosTuple
  else neutralTuple

/-- Function `pyFind c s` models Python's `s.find(c)` for a single character, on inputs
where `c` occurs in `s` (the code only calls it under that guard). -/
def pyFind (c : Char) : List Char → Nat
  | [] => 0
  | a :: as => if a == c then 0 else pyFind c as + 1

/-- Function `pyRFind c s` models Python's `s.rfind(c)`: the index of the last
occurrence of `c` in `s` (meaningful when `c` occurs in `s`). -/
def pyRFind (c : Char) (s : List Char) : Nat :=
  s.length - 1 - pyFind c s.reverse

/-- The JSON-substring extraction of `MemeRecommender._analyze_with_gemini`
(main.py lines 117-121): when the reply contains both a `{` and a `}`, slice
`result_text[start:end]` with `start = result_text.find("{")` and
`end = result_text.rfind("}") + 1`; otherwise no JSON object is found. -/
def extract_json (result_text : List Char) : Option (List Char) :=
  if '{' ∈ result_text ∧ '}' ∈ result_text then
    let start := pyFind '{' result_text
    let stop := pyRFind '}' result_text + 1
    some ((result_text.take stop).drop start)
  else
    none

/-- The response handling of `MemeRecommender._analyze_with_gemini`
(main.py lines 116-125): the reasoning reply text is scanned for a JSON
substring, which is handed to the JSON parser (abstracted as `parse`); a reply
without one raises `ValueError("Invalid response format")`, modelled as an
error result. -/
def analyze_with_gemini (result_text : List Char)
    (parse : List Char → Except Unit MoodAnalysis) : Except Unit MoodAnalysis :=
  match extract_json result_text with
  | some json_str => parse json_str
  | none => Except.error ()

/-- Method `MemeRecommender.analyze_conversation_mood` (main.py lines 53-62): try the
Gemini path when a `GEMINI_API_KEY` is configured, else the fallback; any
exception from the attempt is caught and answered with the fallback. The
Gemini call is abstracted as a function `gemini` that may fail. -/
def analyze_conversation_mood (geminiKey : Bool)
    (gemini : List (List Char) → Except Unit MoodAnalysis)
    (messages : List (List Char)) : Except Unit MoodAnalysis :=
  let attempt : Except Unit MoodAnalysis :=
    if geminiKey then gemini messages else Except.ok (fallback_analysis messages)
  match attempt with
  | Except.ok r => Except.ok r
  | Except.error _ => Except.ok (fallback_analysis messages)

/-- The static fallback GIF list `MemeRecommender.fallback_gifs`
(main.py lines 47-51). -/
def fallback_gifs : List String :=
  ["https://media.tenor.com/example1.gif",
   "https://media.tenor.com/example2.gif",
   "https://media.tenor.com/example3.gif"]

/-- The `gif` entry of a Tenor result's `media_formats` dict; its `url` key may
be absent (`dict.get('url')` then yields `None`). -/
structure GifFormat where
  url : Option String
deriving DecidableEq, Repr

/-- The `media_formats` dict of a Tenor result; its `gif` key may be absent. -/
structure MediaFormats where
  gif : Option GifFormat
deriving DecidableEq, Repr

/-- One element of the Tenor response's `results` list; its `media_formats`
key may be absent. -/
structure TenorResult where
  media_formats : Option MediaFormats
deriving DecidableEq, Repr

/-- Chain `gif.get('media_formats', {}).get('gif', {}).get('url')` from
`get_recommended_gif` (main.py line 165): each missing key defaults to an
empty dict, so the chain yields `None` exactly when some key is absent. -/
def TenorResult.gifUrl (r : TenorResult) : Option String :=
  match r.media_formats with
  | none => none
  | some mf =>
    match mf.gif with
    | none => none
    | some g => g.url

/-- Outcome of the Tenor HTTP request: either the request raises, or it yields
a status code and the (possibly empty) `results` list of the JSON body. An
absent `results` key is truth-equivalent to the empty list in the code's
`data.get('results') and len(data['results']) > 0` test. -/
inductive TenorOutcome where
  | exn
  | resp (status : Nat) (results : List TenorResult)
deriving DecidableEq, Repr

/-- Models `random.choice` on a list, with the random draw abstracted as a pick index
reduced modulo the list length (`none` only on the empty list, where Python's
`random.choice` raises). -/
def randomChoice (pick : Nat) (l : List α) : Option α :=
  l.get? (pick % l.length)

/-- Method `MemeRecommender.get_recommended_gif` (main.py lines 145-171): without a
`TENOR_API_KEY`, a random fallback GIF; with one, query Tenor and on a 200
response with a nonempty `results` list return a random result's GIF URL;
every other path (request exception, bad status, empty results) returns a
random fallback GIF. -/
def get_recommended_gif (tenorKey : Bool) (outcome : TenorOutcome)
    (pickResult pickFallback : Nat) (search_query : String) : Option String :=
  if !tenorKey then randomChoice pickFallback fallback_gifs
  else
    match outcome with
    | TenorOutcome.exn => randomChoice pickFallback fallback_gifs
    | TenorOutcome.resp status results =>
      if status = 200 ∧ results ≠ [] then
        match randomChoice pickResult results with
        | some gif => gif.gifUrl
        | none => none
      else
        randomChoice pickFallback fallback_gifs

/-- One entry of a channel's conversation context
(main.py lines 182-186); the event-loop clock reading is abstracted as a
natural number. -/
structure Message where
  author : List Char
  content : List Char
  timestamp : Nat
deriving DecidableEq, Repr

/-- The `conversation_contexts` dict (main.py line 41): channel id → list of
recent messages, with absent keys explicit. -/
def ContextStore : Type := Int → Option (List Message)

/-- Constant `MAX_CONTEXT_MESSAGES` (main.py line 42). -/
def MAX_CONTEXT_MESSAGES : Nat := 10

/-- The store with no channel entries (module start-up state). -/
def emptyStore : ContextStore := fun _ => none

/-- Python's `l[-n:]` slice for `n > 0`: the last `n` elements. -/
def lastN (n : Nat) (l : List α) : List α :=
  l.drop (l.length - n)

/-- Function `update_conversation_context` (main.py lines 176-190): ensure the channel
has an entry, append the new message, and when the list exceeds
`MAX_CONTEXT_MESSAGES` keep only the last `MAX_CONTEXT_MESSAGES` entries. -/
def update_conversation_context (store : ContextStore) (channel_id : Int)
    (author content : List Char) (ts : Nat) : ContextStore :=
  let cur := match store channel_id with
    | some l => l
    | none => []
  let appended := cur ++ [⟨author, content, ts⟩]
  let kept :=
    if appended.length > MAX_CONTEXT_MESSAGES then lastN MAX_CONTEXT_MESSAGES appended
    else appended
  fun c => if c = channel_id then some kept else store c

/-- One `record` call with its arguments, used to state properties over
arbitrary interleavings of `update_conversation_context` calls. -/
structure RecordOp where
  channel_id : Int
  author : List Char
  content : List Char
  ts : Nat
deriving DecidableEq, Repr

/-- The `Message` a `RecordOp` appends. -/
def RecordOp.toMessage (op : RecordOp) : Message :=
  ⟨op.author, op.content, op.ts⟩

/-- Run a sequence of `update_conversation_context` calls, oldest first. -/
def applyOps : ContextStore → List RecordOp → ContextStore
  | store, [] => store
  | store, op :: rest =>
    applyOps (update_conversation_context store op.channel_id op.author op.content op.ts) rest

/-- The channel's buffered list, empty when the channel has no entry. -/
def bufferOf (store : ContextStore) (channel_id : Int) : List Message :=
  (store channel_id).getD []

/-- All messages recorded for one channel by a sequence of record calls, in
recording order. -/
def channelHistory (ops : List RecordOp) (c : Int) : List Message :=
  (ops.filter (fun op => op.channel_id == c)).map RecordOp.toMessage

/-- The context read pattern `conversation_contexts[channel_id][-n:]` guarded
by key membership (absent channel → empty), the spec's `recent(channel_id, n)`. -/
def recentMessages (store : ContextStore) (channel_id : Int) (n : Nat) : List Message :=
  match store channel_id with
  | some l => lastN n l
  | none => []

/-- The `clear_context` command core (main.py lines 300-308): when the channel
has an entry, delete it and report success (`true`, "context cleared"); else
leave the store unchanged and report the no-op (`false`, "no context to
clear"). -/
def clear_context (store : ContextStore) (channel_id : Int) : ContextStore × Bool :=
  match store channel_id with
  | some _ => (fun c => if c = channel_id then none else store c, true)
  | none => (store, false)

/-- What the manual `!meme` command feeds the pipeline: either a message list
handed to the analyzer, or the fixed analysis dict used when the channel has
no context. -/
inductive MemeAnalysisSource where
  | analyzed (inputs : List (List Char))
  | fixed (a : MoodAnalysis)
deriving DecidableEq, Repr

/-- Python truthiness of the optional `context` command argument
(`if context:` on main.py line 251): `None` and the empty string are falsy. -/
def truthyCtx : Option (List Char) → Bool
  | some t => !t.isEmpty
  | none => false

/-- The fixed analysis dict of the manual command when the channel has no
context (main.py line 261). -/
def manualFixedAnalysis : MoodAnalysis :=
  ⟨"random", "funny reaction gif", "manual"⟩

/-- The analyzer-input selection of the `recommend_meme` command
(main.py lines 251-261): a truthy inline `context` argument is the sole input;
otherwise a channel with an entry contributes its last 5 messages' contents;
otherwise the fixed manual analysis dict is used directly. -/
def recommend_meme_source (store : ContextStore) (channel_id : Int)
    (ctxArg : Option (List Char)) : MemeAnalysisSource :=
  if truthyCtx ctxArg then
    MemeAnalysisSource.analyzed [ctxArg.getD []]
  else
    match store channel_id with
    | some msgs => MemeAnalysisSource.analyzed ((lastN 5 msgs).map Message.content)
    | none => MemeAnalysisSource.fixed manualFixedAnalysis

/-- Depth-counting scan from just after an opening brace: accumulate until the
matching closing brace, `none` when the input ends first. -/
def scanBal : List Char → Nat → List Char → Option (List Char)
  | [], _, _ => none
  | c :: rest, depth, acc =>
    if c = '}' then
      if depth = 1 then some ((c :: acc).reverse)
      else scanBal rest (depth - 1) (c :: acc)
    else if c = '{' then scanBal rest (depth + 1) (c :: acc)
    else scanBal rest depth (c :: acc)

/-- Modelled from the spec: "the core extracts the first balanced `{...}`
substring" of the reply — scan to the first `{` and take up to its matching
`}`. -/
def firstBalanced : List Char → Option (List Char)
  | [] => none
  | c :: rest => if c = '{' then scanBal rest 1 [c] else firstBalanced rest

/-- Reference form of the slice's left edge: everything from the first `{`
onward. -/
def trimToFirstLBrace (s : List Char) : List Char :=
  s.dropWhile (fun a => a != '{')

/-- Reference form of the slice's right edge: everything up to and including
the last `}` (empty when no `}` remains). -/
def trimAfterLastRBrace (s : List Char) : List Char :=
  (s.reverse.dropWhile (fun a => a != '}')).reverse

/-! ### Helper lemmas -/

lemma startsWithL_append_self (n v : List Char) : startsWithL n (n ++ v) = true := by
  induction n with
  | nil => rfl
  | cons a as ih => simp [startsWithL, ih]

lemma containsSub_of_startsWithL {n l : List Char} (h : startsWithL n l = true) :
    containsSub n l = true := by
  cases l with
  | nil =>
    cases n with
    | nil => rfl
    | cons a as => simp [startsWithL] at h
  | cons b bs => simp [containsSub, h]

lemma containsSub_append_self (u n v : List Char) :
    containsSub n (u ++ (n ++ v)) = true := by
  induction u with
  | nil => exact containsSub_of_startsWithL (startsWithL_append_self n v)
  | cons x xs ih => simp [containsSub, ih]

lemma pyFind_lt_length {c : Char} {l : List Char} (h : c ∈ l) :
    pyFind c l < l.length := by
  induction l with
  | nil => cases h
  | cons a as ih =>
    by_cases hac : a = c
    · simp [pyFind, hac]
    · rcases List.mem_cons.mp h with h' | h'
      · exact absurd h'.symm hac
      · simp only [pyFind, List.length_cons]
        rw [if_neg (by simpa using hac)]
        exact Nat.succ_lt_succ (ih h')

lemma pyFind_append_of_mem {c : Char} {u : List Char} (v : List Char) (h : c ∈ u) :
    pyFind c (u ++ v) = pyFind c u := by
  induction u with
  | nil => cases h
  | cons a as ih =>
    by_cases hac : a = c
    · simp [pyFind, hac]
    · rcases List.mem_cons.mp h with h' | h'
      · exact absurd h'.symm hac
      · show (if a == c then 0 else pyFind c (as ++ v) + 1)
            = if a == c then 0 else pyFind c as + 1
        rw [if_neg (by simpa using hac), if_neg (by simpa using hac), ih h']

lemma pyFind_append_of_not_mem {c : Char} {u : List Char} (v : List Char) (h : c ∉ u) :
    pyFind c (u ++ v) = u.length + pyFind c v := by
  induction u with
  | nil => simp [pyFind]
  | cons a as ih =>
    have hac : ¬ a = c := fun hh => h (hh ▸ List.mem_cons_self a as)
    have has : c ∉ as := fun hh => h (List.mem_cons_of_mem a hh)
    show (if a == c then 0 else pyFind c (as ++ v) + 1) = (a :: as).length + pyFind c v
    rw [if_neg (by simpa using hac), ih has, List.length_cons]
    omega

lemma drop_pyFind (c : Char) (l : List Char) :
    l.drop (pyFind c l) = l.dropWhile (fun a => a != c) := by
  induction l with
  | nil => rfl
  | cons a as ih =>
    by_cases hac : a = c
    · simp [pyFind, List.dropWhile, hac]
    · simp only [pyFind, List.dropWhile]
      rw [if_neg (by simpa using hac), bne, beq_eq_false_iff_ne.mpr hac]
      simpa using ih

lemma dropWhile_ne_eq_nil {c : Char} {l : List Char} (h : c ∉ l) :
    l.dropWhile (fun a => a != c) = [] := by
  rw [List.dropWhile_eq_nil_iff]
  intro x hx
  have hne : x ≠ c := fun hxc => h (hxc ▸ hx)
  simpa using hne

lemma pyFind_eq_takeWhile_length (c : Char) (l : List Char) :
    pyFind c l = (l.takeWhile (fun a => a != c)).length := by
  induction l with
  | nil => rfl
  | cons a as ih =>
    by_cases hac : a = c
    · simp [pyFind, List.takeWhile, hac]
    · simp only [pyFind, List.takeWhile]
      rw [if_neg (by simpa using hac), bne, beq_eq_false_iff_ne.mpr hac]
      simpa using ih

lemma take_pyRFind {c : Char} {s : List Char} (h : c ∈ s) :
    s.take (pyRFind c s + 1) = (s.reverse.dropWhile (fun a => a != c)).reverse := by
  have hp : pyFind c s.reverse < s.length := by
    simpa using pyFind_lt_length (List.mem_reverse.mpr h)
  have hidx : pyRFind c s + 1 = s.length - pyFind c s.reverse := by
    unfold pyRFind
    omega
  rw [hidx, ← drop_pyFind]
  have h1 : (s.take (s.length - pyFind c s.reverse)).reverse
      = s.reverse.drop (pyFind c s.reverse) := by
    rw [List.reverse_take]
    congr 1
    omega
  calc s.take (s.length - pyFind c s.reverse)
      = (s.take (s.length - pyFind c s.reverse)).reverse.reverse := by
        rw [List.reverse_reverse]
    _ = (s.reverse.drop (pyFind c s.reverse)).reverse := by rw [h1]

lemma slice_eq_trim {s : List Char} (h1 : '{' ∈ s) (h2 : '}' ∈ s) :
    (s.take (pyRFind '}' s + 1)).drop (pyFind '{' s)
      = trimAfterLastRBrace (trimToFirstLBrace s) := by
  have hs : s.takeWhile (fun a => a != '{') ++ s.dropWhile (fun a => a != '{') = s :=
    List.takeWhile_append_dropWhile _ _
  set u := s.takeWhile (fun a => a != '{') with hu
  set t := s.dropWhile (fun a => a != '{') with ht
  have hi : pyFind '{' s = u.length := pyFind_eq_takeWhile_length '{' s
  have hdrop : s.drop (pyFind '{' s) = t := by
    rw [hi, ← hs, List.drop_left]
  have hlen : s.length = u.length + t.length := by
    rw [← hs, List.length_append]
  have htrim : trimToFirstLBrace s = t := rfl
  rw [List.drop_take, hdrop, htrim]
  have hrev : s.reverse = t.reverse ++ u.reverse := by
    rw [← hs, List.reverse_append]
  by_cases hm : '}' ∈ t
  · have hfind : pyFind '}' s.reverse = pyFind '}' t.reverse := by
      rw [hrev]
      exact pyFind_append_of_mem _ (List.mem_reverse.mpr hm)
    have hp : pyFind '}' t.reverse < t.length := by
      simpa using pyFind_lt_length (List.mem_reverse.mpr hm)
    have hamount : pyRFind '}' s + 1 - pyFind '{' s = pyRFind '}' t + 1 := by
      unfold pyRFind
      rw [hfind, hi, hlen]
      omega
    rw [hamount, take_pyRFind hm]
    rfl
  · have hmu : '}' ∈ u := by
      rw [← hs] at h2
      rcases List.mem_append.mp h2 with h' | h'
      · exact h'
      · exact absurd h' hm
    have hfind : pyFind '}' s.reverse = t.length + pyFind '}' u.reverse := by
      rw [hrev]
      have := pyFind_append_of_not_mem (c := '}') u.reverse
        (fun hh => hm (List.mem_reverse.mp hh))
      rw [this, List.length_reverse]
    have hpu : pyFind '}' u.reverse < u.length := by
      simpa using pyFind_lt_length (List.mem_reverse.mpr hmu)
    have hamount : pyRFind '}' s + 1 - pyFind '{' s = 0 := by
      unfold pyRFind
      rw [hfind, hi, hlen]
      omega
    have htnil : trimAfterLastRBrace t = [] := by
      unfold trimAfterLastRBrace
      rw [dropWhile_ne_eq_nil (fun hh => hm (List.mem_reverse.mp hh))]
      rfl
    rw [hamount, htnil, List.take_zero]

lemma length_lastN_le (n : Nat) (l : List α) : (lastN n l).length ≤ n := by
  unfold lastN
  rw [List.length_drop]
  omega

lemma lastN_of_le {n : Nat} {l : List α} (h : l.length ≤ n) : lastN n l = l := by
  unfold lastN
  have : l.length - n = 0 := by omega
  rw [this, List.drop_zero]

lemma lastN_nil (n : Nat) : lastN n ([] : List α) = [] := by
  simp [lastN]

lemma lastN_step {n : Nat} (hn : 0 < n) (h : List α) (x : α) :
    (if (lastN n h ++ [x]).length > n then lastN n (lastN n h ++ [x])
     else lastN n h ++ [x])
      = lastN n (h ++ [x]) := by
  by_cases hc : h.length < n
  · have h1 : lastN n h = h := lastN_of_le (Nat.le_of_lt hc)
    rw [h1, if_neg (by rw [List.length_append]; simp; omega)]
    exact (lastN_of_le (by rw [List.length_append]; simp; omega)).symm
  · push_neg at hc
    set t := lastN n h with ht
    have hdl : t.length = n := by
      rw [ht]
      unfold lastN
      rw [List.length_drop]
      omega
    rw [if_pos (by rw [List.length_append, hdl]; simp)]
    have lhs : lastN n (t ++ [x]) = t.drop 1 ++ [x] := by
      unfold lastN
      rw [List.length_append, hdl]
      simp only [List.length_cons, List.length_nil]
      have e1 : n + 1 - n = 1 := by omega
      rw [e1, List.drop_append_of_le_length (by rw [hdl]; omega)]
    have rhs : lastN n (h ++ [x]) = h.drop (h.length + 1 - n) ++ [x] := by
      unfold lastN
      rw [List.length_append]
      simp only [List.length_cons, List.length_nil]
      rw [List.drop_append_of_le_length (by omega)]
    rw [lhs, rhs, ht]
    unfold lastN
    rw [List.drop_drop]
    have e4 : h.length - n + 1 = h.length + 1 - n := by omega
    rw [e4]

lemma bufferOf_update_self (store : ContextStore) (ch : Int)
    (a ct : List Char) (ts : Nat) :
    bufferOf (update_conversation_context store ch a ct ts) ch
      = (if (bufferOf store ch ++ [Message.mk a ct ts]).length > MAX_CONTEXT_MESSAGES
         then lastN MAX_CONTEXT_MESSAGES (bufferOf store ch ++ [Message.mk a ct ts])
         else bufferOf store ch ++ [Message.mk a ct ts]) := by
  unfold bufferOf update_conversation_context
  rw [if_pos rfl]
  cases store ch <;> rfl

lemma update_apply_other (store : ContextStore) (ch c : Int)
    (a ct : List Char) (ts : Nat) (h : c ≠ ch) :
    update_conversation_context store ch a ct ts c = store c := by
  unfold update_conversation_context
  simp only [if_neg h]

lemma applyOps_invariant (ops : List RecordOp) :
    ∀ (store : ContextStore) (hist : Int → List Message),
      (∀ c, bufferOf store c = lastN MAX_CONTEXT_MESSAGES (hist c)) →
      ∀ c, bufferOf (applyOps store ops) c
        = lastN MAX_CONTEXT_MESSAGES (hist c ++ channelHistory ops c) := by
  induction ops with
  | nil =>
    intro store hist hinv c
    simp only [applyOps, channelHistory, List.filter_nil, List.map_nil,
      List.append_nil]
    exact hinv c
  | cons op rest ih =>
    intro store hist hinv c
    have hinv' : ∀ c, bufferOf
        (update_conversation_context store op.channel_id op.author op.content op.ts) c
        = lastN MAX_CONTEXT_MESSAGES
            (if op.channel_id = c then hist c ++ [op.toMessage] else hist c) := by
      intro c'
      by_cases hc : c' = op.channel_id
      · rw [hc, bufferOf_update_self, hinv op.channel_id, if_pos rfl]
        exact lastN_step (by simp [MAX_CONTEXT_MESSAGES]) (hist op.channel_id)
          op.toMessage
      · have hother :=
          update_apply_other store op.channel_id c' op.author op.content op.ts hc
        unfold bufferOf
        rw [hother, if_neg (fun hh => hc hh.symm)]
        exact hinv c'
    have hmain := ih
      (update_conversation_context store op.channel_id op.author op.content op.ts)
      (fun c => if op.channel_id = c then hist c ++ [op.toMessage] else hist c)
      hinv' c
    simp only [applyOps]
    rw [hmain]
    congr 1
    by_cases hc : op.channel_id = c
    · rw [if_pos hc]
      unfold channelHistory
      rw [List.filter_cons, if_pos (by simpa using hc)]
      simp [List.append_assoc]
    · rw [if_neg hc]
      unfold channelHistory
      rw [List.filter_cons, if_neg (by simpa using hc)]

lemma applyOps_empty_buffer (ops : List RecordOp) (c : Int) :
    bufferOf (applyOps emptyStore ops) c
      = lastN MAX_CONTEXT_MESSAGES (channelHistory ops c) := by
  have h := applyOps_invariant ops emptyStore (fun _ => [])
    (fun c => by simp [bufferOf, emptyStore, lastN_nil]) c
  simpa using h

/-- Eleven record calls on channel 1, distinguished by their timestamps. -/
def elevenOps : List RecordOp :=
  (List.range 11).map (fun i => ⟨1, [], [], i⟩)

lemma randomChoice_some_of_ne_nil {α : Type} {l : List α} (pick : Nat) (h : l ≠ []) :
    ∃ r, randomChoice pick l = some r := by
  have hlen : 0 < l.length := List.length_pos.mpr h
  have hm : pick % l.length < l.length := Nat.mod_lt _ hlen
  exact ⟨l.get ⟨_, hm⟩, List.get?_eq_get hm⟩

lemma randomChoice_fallback (pick : Nat) :
    ∃ u, randomChoice pick fallback_gifs = some u ∧ u ∈ fallback_gifs := by
  have hm : pick % fallback_gifs.length < fallback_gifs.length :=
    Nat.mod_lt _ (by simp [fallback_gifs])
  exact ⟨fallback_gifs.get ⟨_, hm⟩, List.get?_eq_get hm, List.get_mem _ _ _⟩

lemma get_gif_no_key (outcome : TenorOutcome) (pr pf : Nat) (q : String) :
    get_recommended_gif false outcome pr pf q = randomChoice pf fallback_gifs := rfl

lemma get_gif_exn (pr pf : Nat) (q : String) :
    get_recommended_gif true TenorOutcome.exn pr pf q
      = randomChoice pf fallback_gifs := rfl

lemma get_gif_resp (status : Nat) (results : List TenorResult) (pr pf : Nat)
    (q : String) :
    get_recommended_gif true (TenorOutcome.resp status results) pr pf q
      = (if status = 200 ∧ results ≠ [] then
          match randomChoice pr results with
          | some gif => gif.gifUrl
          | none => none
         else randomChoice pf fallback_gifs) := rfl

/-! ### Claim theorems -/

/-- C2: for every input message list, `analyze_conversation_mood` returns a
`MoodAnalysis` and never raises: whatever the configured-key flag and whatever
the Gemini call does (including failing), the result is an `ok` value, and a
failing primary path is answered with the deterministic keyword fallback. -/
theorem C2_analyze_never_raises (geminiKey : Bool)
    (gemini : List (List Char) → Except Unit MoodAnalysis)
    (messages : List (List Char)) :
    (∃ r, analyze_conversation_mood geminiKey gemini messages = Except.ok r)
    ∧ (gemini messages = Except.error () →
        analyze_conversation_mood geminiKey gemini messages
          = Except.ok (fallback_analysis messages)) := by
  constructor
  · cases geminiKey with
    | false => exact ⟨fallback_analysis messages, rfl⟩
    | true =>
      cases hg : gemini messages with
      | ok r => exact ⟨r, by simp [analyze_conversation_mood, hg]⟩
      | error e => exact ⟨fallback_analysis messages, by simp [analyze_conversation_mood, hg]⟩
  · intro hge
    cases geminiKey with
    | false => rfl
    | true => simp [analyze_conversation_mood, hge]

/-- C2 witness: a Gemini call that throws is caught and the fallback result is
returned. -/
theorem C2_analyze_never_raises_witness :
    analyze_conversation_mood true (fun _ => Except.error ()) []
      = Except.ok (fallback_analysis []) :=
  (C2_analyze_never_raises true (fun _ => Except.error ()) []).2 rfl

/-- C6: with no media credential, every `get_recommended_gif` call returns a
member of the fixed fallback list; a 200-or-otherwise response with an empty
`results` list does the same; and the fallback list has exactly 3 URLs. -/
theorem C6_fallback_gif_selection (outcome : TenorOutcome)
    (pickResult pickFallback : Nat) (q : String) (status : Nat) :
    (∃ u, get_recommended_gif false outcome pickResult pickFallback q = some u
        ∧ u ∈ fallback_gifs)
    ∧ (∃ u, get_recommended_gif true (TenorOutcome.resp status []) pickResult pickFallback q
          = some u ∧ u ∈ fallback_gifs)
    ∧ fallback_gifs.length = 3 := by
  refine ⟨?_, ?_, rfl⟩
  · obtain ⟨u, hu, hm⟩ := randomChoice_fallback pickFallback
    exact ⟨u, by rw [get_gif_no_key]; exact hu, hm⟩
  · obtain ⟨u, hu, hm⟩ := randomChoice_fallback pickFallback
    refine ⟨u, ?_, hm⟩
    rw [get_gif_resp, if_neg (by simp)]
    exact hu

/-- C8: `clear_context` removes the channel's entire entry, so a subsequent
`recent` read of that channel returns the empty list; clearing a channel with
no entry leaves the store unchanged and reports the no-op. -/
theorem C8_clear_context (store : ContextStore) (ch : Int) (n : Nat) :
    ((clear_context store ch).1) ch = none
    ∧ recentMessages ((clear_context store ch).1) ch n = []
    ∧ (store ch = none → clear_context store ch = (store, false)) := by
  have h1 : ((clear_context store ch).1) ch = none := by
    unfold clear_context
    cases hs : store ch with
    | some l => simp
    | none => simpa using hs
  refine ⟨h1, ?_, ?_⟩
  · unfold recentMessages
    rw [h1]
  · intro h
    unfold clear_context
    rw [h]

/-- C8 witness: clearing an absent channel is a reported no-op, and the
channel reads empty afterwards. -/
theorem C8_clear_context_witness :
    ((clear_context emptyStore 5).1) 5 = none
    ∧ recentMessages ((clear_context emptyStore 5).1) 5 10 = []
    ∧ clear_context emptyStore 5 = (emptyStore, false) :=
  ⟨(C8_clear_context emptyStore 5 10).1, (C8_clear_context emptyStore 5 10).2.1,
   (C8_clear_context emptyStore 5 10).2.2 rfl⟩

/-- C10: recording a message on one channel leaves every other channel's
entry (and hence its buffered sequence) unchanged. -/
theorem C10_update_frame (store : ContextStore) (c1 c2 : Int)
    (author content : List Char) (ts : Nat) (h : c1 ≠ c2) :
    update_conversation_context store c1 author content ts c2 = store c2 :=
  update_apply_other store c1 c2 author content ts (fun hh => h hh.symm)

/-- C10 witness: recording on channel 1 leaves channel 2's entry unchanged. -/
theorem C10_update_frame_witness :
    (1 : Int) ≠ 2
    ∧ update_conversation_context emptyStore 1 [] [] 0 2 = emptyStore 2 :=
  ⟨by decide, C10_update_frame emptyStore 1 2 [] [] 0 (by decide)⟩

/-- C4: over any interleaving of record calls on any channels starting from
the empty store, each channel's buffer is exactly the last
`MAX_CONTEXT_MESSAGES` entries of that channel's chronological record history
(so entries are in recording order and the oldest are evicted first) and its
length never exceeds the cap of 10; in particular, after the 11 record calls
of `elevenOps` on channel 1 the first recorded entry is gone from the
buffer. -/
theorem C4_buffer_invariant :
    (∀ (ops : List RecordOp) (c : Int),
        bufferOf (applyOps emptyStore ops) c
          = lastN MAX_CONTEXT_MESSAGES (channelHistory ops c)
        ∧ (bufferOf (applyOps emptyStore ops) c).length ≤ MAX_CONTEXT_MESSAGES)
    ∧ MAX_CONTEXT_MESSAGES = 10
    ∧ (channelHistory elevenOps 1).length = 11
    ∧ (channelHistory elevenOps 1).head? = some (Message.mk [] [] 0)
    ∧ Message.mk [] [] 0 ∉ bufferOf (applyOps emptyStore elevenOps) 1 := by
  refine ⟨fun ops c => ⟨applyOps_empty_buffer ops c, ?_⟩, rfl, by decide, by decide,
    by decide⟩
  rw [applyOps_empty_buffer]
  exact length_lastN_le _ _

/-- C7: the manual `!meme` command's analyzer input is the supplied inline
text alone when one is given (for any buffered history), the fixed
`{random, funny reaction gif, manual}` analysis when no text is given and the
channel has no context, and the last 5 buffered messages' contents
otherwise. -/
theorem C7_manual_command_input :
    (∀ (store : ContextStore) (ch : Int) (t : List Char), t ≠ [] →
        recommend_meme_source store ch (some t) = MemeAnalysisSource.analyzed [t])
    ∧ (∀ (store : ContextStore) (ch : Int), store ch = none →
        recommend_meme_source store ch none
          = MemeAnalysisSource.fixed manualFixedAnalysis)
    ∧ (∀ (store : ContextStore) (ch : Int) (msgs : List Message),
        store ch = some msgs →
        recommend_meme_source store ch none
          = MemeAnalysisSource.analyzed ((lastN 5 msgs).map Message.content))
    ∧ manualFixedAnalysis = MoodAnalysis.mk "random" "funny reaction gif" "manual" := by
  refine ⟨?_, ?_, ?_, rfl⟩
  · intro store ch t ht
    cases t with
    | nil => exact absurd rfl ht
    | cons a as => rfl
  · intro store ch h
    unfold recommend_meme_source
    rw [if_neg (by simp [truthyCtx]), h]
  · intro store ch msgs h
    unfold recommend_meme_source
    rw [if_neg (by simp [truthyCtx]), h]

/-- C7 witness: inline text `"wow great job team"` is the sole analyzer input
even with buffered history present; an absent channel yields the fixed manual
analysis; a populated channel yields its buffered contents. -/
theorem C7_manual_command_input_witness :
    recommend_meme_source
        (fun c => if c = 1 then some [Message.mk [] ("hi".toList) 0] else none) 1
        (some ("wow great job team".toList))
      = MemeAnalysisSource.analyzed ["wow great job team".toList]
    ∧ recommend_meme_source emptyStore 2 none
      = MemeAnalysisSource.fixed manualFixedAnalysis
    ∧ recommend_meme_source
        (fun c => if c = 3 then some [Message.mk [] ("hi".toList) 0] else none) 3 none
      = MemeAnalysisSource.analyzed ["hi".toList] := by
  refine ⟨C7_manual_command_input.1 _ 1 _ (by decide),
    C7_manual_command_input.2.1 emptyStore 2 rfl, ?_⟩
  rw [C7_manual_command_input.2.2.1
    (fun c => if c = 3 then some [Message.mk [] ("hi".toList) 0] else none) 3
    [Message.mk [] ("hi".toList) 0] rfl]
  decide

/-- C3: the keyword fallback always returns one of the four fixed tuples,
chooses the first matching bucket in priority order roast > celebration >
chaos > neutral, returns the neutral tuple on the empty message list, and on
the savage example returns mood `"roast"` with a non-empty search query. -/
theorem C3_fallback_buckets :
    (∀ messages, fallback_analysis messages = roastTuple
        ∨ fallback_analysis messages = celebrationTuple
        ∨ fallback_analysis messages = chaosTuple
        ∨ fallback_analysis messages = neutralTuple)
    ∧ fallback_analysis [] = neutralTuple
    ∧ neutralTuple = MoodAnalysis.mk "neutral" "reaction gif" "low"
    ∧ (fallback_analysis ["That was absolutely savage, you got roasted".toList]).mood
        = "roast"
    ∧ (fallback_analysis ["That was absolutely savage, you got roasted".toList]).search_query
        ≠ ""
    ∧ (∀ messages, keywordHit (moodText messages) roastWords = true →
        fallback_analysis messages = roastTuple)
    ∧ (∀ messages, keywordHit (moodText messages) roastWords = false →
        keywordHit (moodText messages) celebrationWords = true →
        fallback_analysis messages = celebrationTuple)
    ∧ (∀ messages, keywordHit (moodText messages) roastWords = false →
        keywordHit (moodText messages) celebrationWords = false →
        keywordHit (moodText messages) chaosWords = true →
        fallback_analysis messages = chaosTuple)
    ∧ (∀ messages, keywordHit (moodText messages) roastWords = false →
        keywordHit (moodText messages) celebrationWords = false →
        keywordHit (moodText messages) chaosWords = false →
        fallback_analysis messages = neutralTuple) := by
  refine ⟨?_, by decide, rfl, by decide, by decide, ?_, ?_, ?_, ?_⟩
  · intro messages
    simp only [fallback_analysis]
    split
    · exact Or.inl rfl
    · split
      · exact Or.inr (Or.inl rfl)
      · split
        · exact Or.inr (Or.inr (Or.inl rfl))
        · exact Or.inr (Or.inr (Or.inr rfl))
  · intro messages h
    simp only [fallback_analysis]
    rw [if_pos h]
  · intro messages h1 h2
    simp only [fallback_analysis]
    rw [if_neg (by simp [h1]), if_pos h2]
  · intro messages h1 h2 h3
    simp only [fallback_analysis]
    rw [if_neg (by simp [h1]), if_neg (by simp [h2]), if_pos h3]
  · intro messages h1 h2 h3
    simp only [fallback_analysis]
    rw [if_neg (by simp [h1]), if_neg (by simp [h2]), if_neg (by simp [h3])]

/-- C3 witness: each priority branch fired at a concrete input. -/
theorem C3_fallback_buckets_witness :
    fallback_analysis ["roast".toList] = roastTuple
    ∧ fallback_analysis ["win the game".toList] = celebrationTuple
    ∧ fallback_analysis ["wtf".toList] = chaosTuple
    ∧ fallback_analysis ["hello there".toList] = neutralTuple :=
  ⟨C3_fallback_buckets.2.2.2.2.2.1 ["roast".toList] (by decide),
   C3_fallback_buckets.2.2.2.2.2.2.1 ["win the game".toList] (by decide) (by decide),
   C3_fallback_buckets.2.2.2.2.2.2.2.1 ["wtf".toList] (by decide) (by decide) (by decide),
   C3_fallback_buckets.2.2.2.2.2.2.2.2 ["hello there".toList] (by decide) (by decide)
     (by decide)⟩

/-- C9: bucket membership is substring containment, not whole-word matching:
any message embedding `"win"` inside a longer word still selects the
celebration bucket (when no roast keyword also occurs), as `"window"`
shows. -/
theorem C9_substring_matching :
    (∀ (a b : List Char),
        keywordHit (moodText [a ++ "win".toList ++ b]) roastWords = false →
        fallback_analysis [a ++ "win".toList ++ b] = celebrationTuple)
    ∧ fallback_analysis ["I broke the window".toList] = celebrationTuple := by
  constructor
  · intro a b h
    have hmt : moodText [a ++ "win".toList ++ b]
        = lowerL a ++ ("win".toList ++ lowerL b) := by
      show lowerL (joinSpace [a ++ "win".toList ++ b])
          = lowerL a ++ ("win".toList ++ lowerL b)
      have hj : joinSpace [a ++ "win".toList ++ b] = a ++ "win".toList ++ b := rfl
      rw [hj]
      unfold lowerL
      rw [List.map_append, List.map_append, List.append_assoc]
      have hw : List.map Char.toLower ("win".toList) = "win".toList := by decide
      rw [hw]
    have hwin : containsSub ("win".toList) (moodText [a ++ "win".toList ++ b]) = true := by
      rw [hmt]
      exact containsSub_append_self (lowerL a) ("win".toList) (lowerL b)
    have hcel : keywordHit (moodText [a ++ "win".toList ++ b]) celebrationWords = true := by
      unfold keywordHit
      rw [List.any_eq_true]
      exact ⟨"win".toList, by decide, hwin⟩
    simp only [fallback_analysis]
    rw [if_neg (by simpa using h), if_pos (by simpa using hcel)]
  · decide

/-- C9 witness: `"window"` triggers the celebration bucket through the
embedded substring `"win"`. -/
theorem C9_substring_matching_witness :
    keywordHit (moodText ["look at the ".toList ++ "win".toList ++ "dow".toList])
        roastWords = false
    ∧ fallback_analysis ["look at the ".toList ++ "win".toList ++ "dow".toList]
        = celebrationTuple :=
  ⟨by decide, C9_substring_matching.1 ("look at the ".toList) ("dow".toList) (by decide)⟩

/-- C1 counterexample: on a successful (status 200) response with one result
whose `media_formats` dict lacks the gif URL chain, `get_recommended_gif`
returns `none` — refuting the claim that a successful response with at least
one result always yields a non-null URL string. -/
theorem C1_counterexample :
    get_recommended_gif true (TenorOutcome.resp 200 [TenorResult.mk none]) 0 0
        "savage burn gif" = none := by
  decide

/-- C1 (amended): `get_recommended_gif` never raises, and every call either
returns a non-null member of the static fallback list, or — only when a
credential is configured and the service answers 200 with a nonempty result
list — returns the randomly chosen result's gif URL, which is null exactly
when that result lacks the `media_formats.gif.url` chain. -/
theorem C1_gif_total_amended (tenorKey : Bool) (outcome : TenorOutcome)
    (pickResult pickFallback : Nat) (q : String) :
    (∃ u, get_recommended_gif tenorKey outcome pickResult pickFallback q = some u
        ∧ u ∈ fallback_gifs)
    ∨ (∃ status results gif, tenorKey = true
        ∧ outcome = TenorOutcome.resp status results
        ∧ status = 200 ∧ results ≠ []
        ∧ randomChoice pickResult results = some gif
        ∧ get_recommended_gif tenorKey outcome pickResult pickFallback q
            = gif.gifUrl) := by
  cases tenorKey with
  | false =>
    left
    obtain ⟨u, hu, hm⟩ := randomChoice_fallback pickFallback
    exact ⟨u, by rw [get_gif_no_key]; exact hu, hm⟩
  | true =>
    cases outcome with
    | exn =>
      left
      obtain ⟨u, hu, hm⟩ := randomChoice_fallback pickFallback
      exact ⟨u, by rw [get_gif_exn]; exact hu, hm⟩
    | resp status results =>
      by_cases hc : status = 200 ∧ results ≠ []
      · right
        obtain ⟨g, hg⟩ := randomChoice_some_of_ne_nil pickResult hc.2
        refine ⟨status, results, g, rfl, rfl, hc.1, hc.2, hg, ?_⟩
        rw [get_gif_resp, if_pos hc, hg]
      · left
        obtain ⟨u, hu, hm⟩ := randomChoice_fallback pickFallback
        refine ⟨u, ?_, hm⟩
        rw [get_gif_resp, if_neg hc]
        exact hu

/-- C5 counterexample: on the reply `a{x}b{y}c` the code slices from the first
`{` to the last `}` (yielding `{x}b{y}`), not the first balanced `{...}`
substring (`{x}`) the claim describes. -/
theorem C5_counterexample :
    extract_json ("a{x}b{y}c".toList) = some ("{x}b{y}".toList)
    ∧ firstBalanced ("a{x}b{y}c".toList) = some ("{x}".toList)
    ∧ extract_json ("a{x}b{y}c".toList) ≠ firstBalanced ("a{x}b{y}c".toList) := by
  decide

/-- C5 (amended): when the reply contains both `{` and `}` the extracted
substring runs from the first `{` through the last `}` (and that substring is
handed to the JSON parser); a reply lacking `{` or `}` is treated as a
failure of the Gemini path. -/
theorem C5_extraction_amended (s : List Char)
    (parse : List Char → Except Unit MoodAnalysis) :
    extract_json s
      = (if '{' ∈ s ∧ '}' ∈ s
         then some (trimAfterLastRBrace (trimToFirstLBrace s)) else none)
    ∧ (¬ ('{' ∈ s ∧ '}' ∈ s) → analyze_with_gemini s parse = Except.error ()) := by
  constructor
  · unfold extract_json
    by_cases h : '{' ∈ s ∧ '}' ∈ s
    · rw [if_pos h, if_pos h]
      exact congrArg some (slice_eq_trim h.1 h.2)
    · rw [if_neg h, if_neg h]
  · intro h
    unfold analyze_with_gemini extract_json
    rw [if_neg h]

/-- C5 witness: a brace-free reply is treated as a Gemini-path failure. -/
theorem C5_extraction_amended_witness :
    analyze_with_gemini ("no json here".toList) (fun _ => Except.error ())
      = Except.error () :=
  (C5_extraction_amended ("no json here".toList) (fun _ => Except.error ())).2
    (by decide)

/-- C1 witness: the amended dichotomy instantiated at the no-credential
call. -/
theorem C1_gif_total_amended_witness :
    (∃ u, get_recommended_gif false TenorOutcome.exn 0 0 "q" = some u
        ∧ u ∈ fallback_gifs)
    ∨ (∃ status results gif, false = true
        ∧ TenorOutcome.exn = TenorOutcome.resp status results
        ∧ status = 200 ∧ results ≠ []
        ∧ randomChoice 0 results = some gif
        ∧ get_recommended_gif false TenorOutcome.exn 0 0 "q" = gif.gifUrl) :=
  C1_gif_total_amended false TenorOutcome.exn 0 0 "q"

/-- C4 witness: the invariant instantiated at the eleven-record run. -/
theorem C4_buffer_invariant_witness :
    bufferOf (applyOps emptyStore elevenOps) 1
      = lastN MAX_CONTEXT_MESSAGES (channelHistory elevenOps 1) :=
  (C4_buffer_invariant.1 elevenOps 1).1

/-- C6 witness: the fallback list's size, via the claim theorem. -/
theorem C6_fallback_gif_selection_witness : fallback_gifs.length = 3 :=
  (C6_fallback_gif_selection TenorOutcome.exn 0 1 "q" 200).2.2
